import Mathlib

/-! Shallow embedding of SanmokuRust (`src/main.rs`).

A terminal tic-tac-toe game structured as a Model-View-Update loop.
This file embeds the pure state-transition core (`update` and its helpers,
win/draw detection) and the two input-prompt loops, and proves the frozen
claims about them.

Conventions of the embedding:
* `Board` is `Fin 9 → Cell`, matching the Rust `[Cell; 9]`; all indices the
  program ever uses are in `0..9` (the `Message` carries an index `0..8`).
* The spec's mark names map to the source's: First = `Cell.Nought`,
  Second = `Cell.Cross`, Empty = `Cell.Unfilled`.
* The only randomness (`availables.shuffle(&mut rng)` followed by `pop`)
  is modelled by an explicit `shuffle : List (Fin 9) → List (Fin 9)`
  parameter; theorems that depend on it assume `∀ l, (shuffle l).Perm l`,
  which every run of the Rust shuffle satisfies.  `Vec::pop` returns the
  last element, embedded as `List.getLast?`.
* The prompt loops (`ask_user_to_be_first`, `ask_move`) read from a finite
  stream `List (Option (List Char))` of line reads — `some line` for
  `Ok` (the line includes its trailing newline), `none` for a read error.
  An exhausted stream yields `none` ("still looping"), never a default.
-/

-- ## Data model (`main.rs` lines 5-61)

inductive Player where
  | User : Player
  | Computer : Player
deriving DecidableEq, Repr

inductive Cell where
  | Nought : Cell
  | Cross : Cell
  | Unfilled : Cell
deriving DecidableEq, Repr

def Board : Type := Fin 9 → Cell

instance : DecidableEq Board := by unfold Board; infer_instance

inductive GameStatus where
  | Draw : GameStatus
  | NotFinished : GameStatus
  | Settled : Player → GameStatus
deriving DecidableEq, Repr

structure Model where
  first_player : Option Player
  board : Board
  status : GameStatus
deriving DecidableEq

/-- Embedding of `Model::new()`: first player unset, board all `Unfilled`, `NotFinished`. -/
def Model.new : Model where
  status := GameStatus.NotFinished
  board := fun _ => Cell.Unfilled
  first_player := none

inductive Message where
  | CellClicked : Fin 9 → Message
  | PlayerSelected : Bool → Message
  | NoMessage : Message

-- ## Win/draw detection (`main.rs` lines 219-292)

/-- The eight winning lines, in the order of the `pattern` array in
`has_bingo`. -/
def winning_patterns : List (Nat × Nat × Nat) :=
  [(0, 1, 2), (3, 4, 5), (6, 7, 8), (0, 3, 6), (1, 4, 7), (2, 5, 8),
   (0, 4, 8), (2, 4, 6)]

/-- Embedding of `has_bingo`: the `for` loop with early `return true` over the
pattern array is `List.any`. -/
def has_bingo (indices : List Nat) : Bool :=
  winning_patterns.any fun t =>
    indices.contains t.1 && indices.contains t.2.1 && indices.contains t.2.2

/-- The `noughts` vector built by the index loop in `update_game_status`:
indices `0..9` holding `Nought`, in ascending order. -/
def nought_indices (b : Board) : List Nat :=
  ((List.finRange 9).filter fun i => b i = Cell.Nought).map Fin.val

/-- The `crosses` vector built by the index loop in `update_game_status`. -/
def cross_indices (b : Board) : List Nat :=
  ((List.finRange 9).filter fun i => b i = Cell.Cross).map Fin.val

/-- The `num_unfilled` counter of `update_game_status`: a cell is counted
when it is neither `Nought` nor `Cross`, i.e. exactly when `Unfilled`. -/
def num_unfilled (b : Board) : Nat :=
  ((List.finRange 9).filter fun i => b i = Cell.Unfilled).length

/-- Embedding of `update_game_status`: recompute the status from the board,
keeping `board` and `first_player`.  The winner expressions mirror the
source's `if let Some(Player::User) = model.first_player` tests. -/
def update_game_status (model : Model) : Model :=
  if has_bingo (nought_indices model.board) then
    { model with
      status := GameStatus.Settled
        (if model.first_player = some Player.User then Player.User
         else Player.Computer) }
  else if has_bingo (cross_indices model.board) then
    { model with
      status := GameStatus.Settled
        (if model.first_player = some Player.User then Player.Computer
         else Player.User) }
  else if num_unfilled model.board = 0 then
    { model with status := GameStatus.Draw }
  else model

-- ## Board updates (`main.rs` lines 168-217, 262-273)

/-- Embedding of `update_board_helper`: the copy loop writes `cell` at `selected_index`
and copies every other position. -/
def update_board_helper (board : Board) (selected_index : Fin 9)
    (cell : Cell) : Board :=
  fun i => if i = selected_index then cell else board i

/-- Embedding of `get_available_cells`: indices `0..9` whose cell is `Unfilled`, in
ascending order. -/
def get_available_cells (board : Board) : List (Fin 9) :=
  (List.finRange 9).filter fun i => board i = Cell.Unfilled

/-- The user's mark: `Nought` exactly when the user moved first
(`if let Some(Player::User) = model.first_player`). -/
def user_cell_type : Option Player → Cell
  | some Player.User => Cell.Nought
  | _ => Cell.Cross

/-- The computer's mark: `Cross` exactly when the user moved first. -/
def computer_cell_type : Option Player → Cell
  | some Player.User => Cell.Cross
  | _ => Cell.Nought

/-- Embedding of `update_board_with_user_move`. -/
def update_board_with_user_move (model : Model) (selected_cell : Fin 9) :
    Model :=
  update_game_status
    { model with
      board := update_board_helper model.board selected_cell
        (user_cell_type model.first_player) }

/-- Embedding of `update_board_with_random_play_computer_move`: shuffle the available
cells (`shuffle` stands for the RNG), `pop` the last one (if any), play the
computer's mark there, and recompute the status. -/
def update_board_with_random_play_computer_move
    (shuffle : List (Fin 9) → List (Fin 9)) (model : Model) : Model :=
  match (shuffle (get_available_cells model.board)).getLast? with
  | some i =>
      update_game_status
        { model with
          board := update_board_helper model.board i
            (computer_cell_type model.first_player) }
  | none => update_game_status model

/-- Embedding of `update_board`: user move, then (unconditionally) the computer-move
function. -/
def update_board (shuffle : List (Fin 9) → List (Fin 9)) (model : Model)
    (selected_cell : Fin 9) : Model :=
  update_board_with_random_play_computer_move shuffle
    (update_board_with_user_move model selected_cell)

/-- Embedding of `update_player_selection`. -/
def update_player_selection (shuffle : List (Fin 9) → List (Fin 9))
    (model : Model) (is_player_first : Bool) : Model :=
  if is_player_first then { model with first_player := some Player.User }
  else
    update_board_with_random_play_computer_move shuffle
      { model with first_player := some Player.Computer }

/-- Embedding of `update(model, message)`, with the RNG threaded as `shuffle`. -/
def update (shuffle : List (Fin 9) → List (Fin 9)) (model : Model) :
    Message → Model
  | Message.CellClicked selected_cell => update_board shuffle model selected_cell
  | Message.PlayerSelected flag => update_player_selection shuffle model flag
  | Message.NoMessage => model

-- ## Input prompts (`main.rs` lines 101-140)

/-- First character of a line, parsed as a `usize`: succeeds exactly on the
ASCII digits (`"9".parse::<usize>()` succeeds with 9). -/
def parse_digit (c : Char) : Option Nat :=
  if c.isDigit then some (c.toNat - 48) else none

/-- Embedding of `ask_user_to_be_first` over a finite stream of reads: a read error or a
line whose first character is neither `y` nor `n` retries on the rest of
the stream; an exhausted stream means the loop is still running (`none`),
never a defaulted answer. -/
def ask_user_to_be_first : List (Option (List Char)) → Option Bool
  | [] => none
  | ans :: rest =>
    match ans with
    | some s =>
      match s.head? with
      | some c =>
          if c = 'y' then some true
          else if c = 'n' then some false
          else ask_user_to_be_first rest
      | none => ask_user_to_be_first rest
    | none => ask_user_to_be_first rest

/-- Embedding of `ask_move` over a finite stream of reads: the first
character must parse as a digit (`s.get(0..1).and_then(parse)`) and the
digit must be contained in `available`; otherwise retry. -/
def ask_move (available : List Nat) :
    List (Option (List Char)) → Option Nat
  | [] => none
  | ans :: rest =>
    match ans with
    | some s =>
      match s.head?.bind parse_digit with
      | some i =>
          if available.contains i then some i
          else ask_move available rest
      | none => ask_move available rest
    | none => ask_move available rest

-- ## Spec-side definitions (used only to state refinement claims)

/-- The other side. -/
def other_player : Player → Player
  | Player.User => Player.Computer
  | Player.Computer => Player.User

/-- Spec reading of one yes/no read: the answer it settles, if any. -/
def yn_of : Option (List Char) → Option Bool
  | some s =>
    match s.head? with
    | some c =>
        if c = 'y' then some true
        else if c = 'n' then some false
        else none
    | none => none
  | none => none

/-- Spec reading of one cell-choice read against `available`. -/
def move_of (available : List Nat) (ans : Option (List Char)) : Option Nat :=
  (ans.bind fun s => s.head?.bind parse_digit).bind fun i =>
    if available.contains i then some i else none

/-- The cells that changed from Empty (`Unfilled`) to non-Empty between two
boards. -/
def changed_cells (b b' : Board) : Finset (Fin 9) :=
  Finset.univ.filter fun i => b i = Cell.Unfilled ∧ b' i ≠ Cell.Unfilled

-- ## Concrete game states used as witnesses and counterexamples

/-- A mid-game board reachable with the computer (`Nought`) moving first:
computer played 3, 4, 8; user (`Cross`) played 0, 1. -/
def overturnBoard : Board :=
  ![Cell.Cross, Cell.Cross, Cell.Unfilled, Cell.Nought, Cell.Nought,
    Cell.Unfilled, Cell.Unfilled, Cell.Unfilled, Cell.Nought]

/-- The model for `overturnBoard`: the user is about to click cell 2,
completing the top row of crosses. -/
def overturnModel : Model :=
  ⟨some Player.Computer, overturnBoard, GameStatus.NotFinished⟩

/-- A settled model (user already won the top row) with empty cells left. -/
def settledModel : Model :=
  ⟨some Player.User,
   ![Cell.Nought, Cell.Nought, Cell.Nought, Cell.Unfilled, Cell.Unfilled,
     Cell.Unfilled, Cell.Unfilled, Cell.Unfilled, Cell.Unfilled],
   GameStatus.Settled Player.User⟩

/-- A fresh model in which the user chose to move first. -/
def userFirstModel : Model :=
  ⟨some Player.User, Model.new.board, GameStatus.NotFinished⟩

-- ## Basic lemmas about the embedded operations

theorem update_game_status_board (m : Model) :
    (update_game_status m).board = m.board := by
  unfold update_game_status
  split_ifs <;> rfl

theorem update_game_status_first_player (m : Model) :
    (update_game_status m).first_player = m.first_player := by
  unfold update_game_status
  split_ifs <;> rfl

theorem update_board_helper_apply (b : Board) (sel : Fin 9) (c : Cell)
    (j : Fin 9) : update_board_helper b sel c j = if j = sel then c else b j :=
  rfl

theorem mem_get_available_cells (b : Board) (j : Fin 9) :
    j ∈ get_available_cells b ↔ b j = Cell.Unfilled := by
  simp [get_available_cells, List.mem_filter, List.mem_finRange]

theorem get_available_cells_eq_nil (b : Board) :
    get_available_cells b = [] ↔ ∀ i, b i ≠ Cell.Unfilled := by
  simp [get_available_cells, List.filter_eq_nil_iff, List.mem_finRange]

theorem user_cell_type_ne_unfilled (fp : Option Player) :
    user_cell_type fp ≠ Cell.Unfilled := by
  rcases fp with _ | p
  · decide
  · cases p <;> decide

theorem computer_cell_type_ne_unfilled (fp : Option Player) :
    computer_cell_type fp ≠ Cell.Unfilled := by
  rcases fp with _ | p
  · decide
  · cases p <;> decide

theorem num_unfilled_eq_zero_iff (b : Board) :
    num_unfilled b = 0 ↔ ∀ i, b i ≠ Cell.Unfilled := by
  simp [num_unfilled, List.length_eq_zero, List.filter_eq_nil_iff,
    List.mem_finRange]

-- ## Claims

/-- C6: for every board, target index and mark, `update_board_helper`
is a pure single-cell replace: every cell other than the target keeps its
original value, and the target cell gets the written mark. -/
theorem claim6_single_cell_replace (board : Board) (sel : Fin 9) (c : Cell)
    (j : Fin 9) (h : j ≠ sel) :
    update_board_helper board sel c j = board j ∧
    update_board_helper board sel c sel = c := by
  constructor
  · simp [update_board_helper, h]
  · simp [update_board_helper]

/-- Witness for C6 at a concrete board, target 2, observed cell 5. -/
theorem claim6_single_cell_replace_witness :
    update_board_helper Model.new.board 2 Cell.Nought 5 = Model.new.board 5 ∧
    update_board_helper Model.new.board 2 Cell.Nought 2 = Cell.Nought :=
  claim6_single_cell_replace Model.new.board 2 Cell.Nought 5 (by decide)

/-- C4: the function `has_bingo` is true iff the index list contains all three
indices of one of the 8 winning lines of `winning_patterns`; in particular
it is true on each of the 8 triples and false on the empty list and on
every 2-element subset of a winning triple. -/
theorem claim4_has_bingo_characterization :
    (∀ l : List Nat, has_bingo l = true ↔
      ∃ t ∈ winning_patterns, t.1 ∈ l ∧ t.2.1 ∈ l ∧ t.2.2 ∈ l) ∧
    (∀ t ∈ winning_patterns, has_bingo [t.1, t.2.1, t.2.2] = true) ∧
    has_bingo [] = false ∧
    (∀ t ∈ winning_patterns,
      has_bingo [t.1, t.2.1] = false ∧ has_bingo [t.1, t.2.2] = false ∧
        has_bingo [t.2.1, t.2.2] = false) := by
  refine ⟨?_, by decide, by decide, by decide⟩
  intro l
  simp [has_bingo, List.any_eq_true, List.elem_iff, and_assoc]

/-- Witness for C4: the first row is a bingo. -/
theorem claim4_has_bingo_characterization_witness :
    has_bingo [0, 1, 2] = true :=
  (claim4_has_bingo_characterization.1 [0, 1, 2]).mpr
    ⟨(0, 1, 2), by decide, by decide, by decide, by decide⟩

/-- C2 counterexample: a Settled model is not absorbing: `update` with
`CellClicked 3` writes the user's mark into cell 3 of `settledModel`
(and the computer then also moves), so the model is not returned
unchanged. -/
theorem claim2_counterexample :
    settledModel.status = GameStatus.Settled Player.User ∧
    settledModel.board 3 = Cell.Unfilled ∧
    (update id settledModel (Message.CellClicked 3)).board 3 =
      Cell.Nought := by
  decide

/-- C2 amended: terminal states are absorbing only for the `None`
message: `update` never inspects `status`, so a `CellClicked` or
`PlayerOrderChosen` message is processed on a Draw/Settled model exactly as
on a live one and may change it; `update(model, None)` returns the model
unchanged. -/
theorem claim2_amended_none_message_absorbing
    (shuffle : List (Fin 9) → List (Fin 9)) (m : Model)
    (_term_status : m.status = GameStatus.Draw ∨
      ∃ p, m.status = GameStatus.Settled p) :
    update shuffle m Message.NoMessage = m :=
  rfl

/-- Witness for the amended C2 at the concrete settled model. -/
theorem claim2_amended_none_message_absorbing_witness :
    update id settledModel Message.NoMessage = settledModel :=
  claim2_amended_none_message_absorbing id settledModel
    (Or.inr ⟨Player.User, rfl⟩)

/-- C3: for every board and set first player, `update_game_status`
computes exactly the spec's decision chain: Settled(first player) when the
`Nought` (First-mark) cells contain a winning line — checked first, so a
double bingo also yields Settled(first player) — else Settled(other
player) when the `Cross` cells do, else Draw when no cell is `Unfilled`,
else NotFinished; board and first player are kept. -/
theorem claim3_update_game_status_spec (b : Board) (p : Player) :
    update_game_status ⟨some p, b, GameStatus.NotFinished⟩ =
      ⟨some p, b,
        if has_bingo (nought_indices b) = true then GameStatus.Settled p
        else if has_bingo (cross_indices b) = true then
          GameStatus.Settled (other_player p)
        else if ∀ i, b i ≠ Cell.Unfilled then GameStatus.Draw
        else GameStatus.NotFinished⟩ := by
  have hnum := num_unfilled_eq_zero_iff b
  cases p <;>
    · unfold update_game_status other_player
      split_ifs <;> simp_all

/-- Witness for C3: on the settled model's board (noughts on the top row)
with the user first, the recomputed status is Settled(User). -/
theorem claim3_update_game_status_spec_witness :
    update_game_status
        ⟨some Player.User, settledModel.board, GameStatus.NotFinished⟩ =
      ⟨some Player.User, settledModel.board,
        GameStatus.Settled Player.User⟩ := by
  rw [claim3_update_game_status_spec]
  decide

/-- C10: with `first_player` unset, the code behaves as if the
computer were the first player: status recomputation follows the same
chain as with `first_player = Computer` — a `Nought` (First-mark) bingo is
attributed to the Computer and, failing that, a `Cross` bingo to the User —
the user-move step writes `Cross` and the computer-move step writes
`Nought`. -/
theorem claim10_unset_first_player_is_computer_first
    (b : Board) (s : GameStatus) (i j : Fin 9)
    (shuffle : List (Fin 9) → List (Fin 9))
    (hj : (shuffle (get_available_cells b)).getLast? = some j) :
    (update_game_status ⟨none, b, s⟩).status =
      (update_game_status ⟨some Player.Computer, b, s⟩).status ∧
    (update_game_status ⟨none, b, s⟩).status =
      (if has_bingo (nought_indices b) = true then
        GameStatus.Settled Player.Computer
       else if has_bingo (cross_indices b) = true then
        GameStatus.Settled Player.User
       else if num_unfilled b = 0 then GameStatus.Draw else s) ∧
    (update_board_with_user_move ⟨none, b, s⟩ i).board i = Cell.Cross ∧
    (update_board_with_random_play_computer_move shuffle ⟨none, b, s⟩).board j
      = Cell.Nought := by
  refine ⟨?_, ?_, ?_, ?_⟩
  · simp only [update_game_status]
    split_ifs <;> simp_all
  · simp only [update_game_status]
    split_ifs <;> simp_all
  · simp [update_board_with_user_move, update_game_status_board,
      update_board_helper, user_cell_type]
  · simp only [update_board_with_random_play_computer_move, hj,
      update_game_status_board]
    simp [update_board_helper, computer_cell_type]

/-- Witness for C10: on the empty board with `first_player` unset, the
computer-move step (identity shuffle pops cell 8) writes a `Nought`. -/
theorem claim10_unset_first_player_is_computer_first_witness :
    (update_board_with_random_play_computer_move id
        ⟨none, Model.new.board, GameStatus.NotFinished⟩).board 8 =
      Cell.Nought :=
  (claim10_unset_first_player_is_computer_first Model.new.board
    GameStatus.NotFinished 0 8 id (by decide)).2.2.2

/-- C8: the yes/no prompt returns exactly the answer carried by the
first read whose line starts with `y` or `n` (`(inputs.filterMap
yn_of).head?`): every earlier invalid read — wrong first character, empty
line, or read failure — is skipped, and a stream with no valid read yields
no answer at all (never a default).  In particular the input sequence
`"z\n"` then `"n\n"` yields `false`. -/
theorem claim8_yes_no_prompt (inputs : List (Option (List Char))) :
    ask_user_to_be_first inputs = (inputs.filterMap yn_of).head? ∧
    ask_user_to_be_first [some ['z', '\n'], some ['n', '\n']] =
      some false := by
  refine ⟨?_, by decide⟩
  induction inputs with
  | nil => rfl
  | cons a rest ih =>
    rcases a with _ | s
    · simpa [ask_user_to_be_first, yn_of] using ih
    · rcases hc : s.head? with _ | c
      · simpa [ask_user_to_be_first, yn_of, hc] using ih
      · by_cases hy : c = 'y'
        · simp [ask_user_to_be_first, yn_of, hc, hy]
        · by_cases hn : c = 'n'
          · simp [ask_user_to_be_first, yn_of, hc, hy, hn]
          · simpa [ask_user_to_be_first, yn_of, hc, hy, hn] using ih

/-- Witness for C8 at the spec's concrete input sequence. -/
theorem claim8_yes_no_prompt_witness :
    ask_user_to_be_first [some ['z', '\n'], some ['n', '\n']] =
      some false :=
  (claim8_yes_no_prompt []).2

/-- C9: the cell-choice prompt returns exactly the digit parsed from
the first character of the first line that parses and is contained in the
available set (`inputs.findSome? (move_of available)`); any read
that fails to parse or parses outside the set is rejected with a retry,
so any returned index is a member of the available set. -/
theorem claim9_cell_choice_prompt (available : List Nat)
    (inputs : List (Option (List Char))) :
    ask_move available inputs = inputs.findSome? (move_of available) ∧
    ∀ r, ask_move available inputs = some r → r ∈ available := by
  have key : ask_move available inputs =
      inputs.findSome? (move_of available) := by
    induction inputs with
    | nil => rfl
    | cons a rest ih =>
      rcases a with _ | s
      · simpa [ask_move, move_of] using ih
      · rcases hc : s.head?.bind parse_digit with _ | i
        · simpa [ask_move, move_of, hc] using ih
        · by_cases hm : i ∈ available
          · simp [ask_move, move_of, hc, hm]
          · simpa [ask_move, move_of, hc, hm] using ih
  refine ⟨key, fun r hr => ?_⟩
  rw [key] at hr
  obtain ⟨a, -, ha⟩ := List.exists_of_findSome?_eq_some hr
  unfold move_of at ha
  rcases hb : a.bind fun s => s.head?.bind parse_digit with _ | i <;>
    rw [hb] at ha
  · simp at ha
  · by_cases hm : i ∈ available
    · simp [hm] at ha
      exact ha ▸ hm
    · simp [hm] at ha

/-- Witness for C9: with cells 0 and 4 available, the stream "9", read
error, "4" returns 4, which is available. -/
theorem claim9_cell_choice_prompt_witness :
    ask_move [0, 4] [some ['9', '\n'], none, some ['4', '\n']] = some 4 ∧
    (4 : Nat) ∈ [0, 4] :=
  ⟨by decide,
   (claim9_cell_choice_prompt [0, 4]
      [some ['9', '\n'], none, some ['4', '\n']]).2 4 (by decide)⟩

-- ## Lemmas about the computer-move step

theorem comp_move_eq_of_getLast_some (shuffle : List (Fin 9) → List (Fin 9))
    (m : Model) (j : Fin 9)
    (hj : (shuffle (get_available_cells m.board)).getLast? = some j) :
    update_board_with_random_play_computer_move shuffle m =
      update_game_status
        { m with
          board := update_board_helper m.board j
            (computer_cell_type m.first_player) } := by
  simp only [update_board_with_random_play_computer_move, hj]

theorem comp_move_eq_of_getLast_none (shuffle : List (Fin 9) → List (Fin 9))
    (m : Model)
    (hn : (shuffle (get_available_cells m.board)).getLast? = none) :
    update_board_with_random_play_computer_move shuffle m =
      update_game_status m := by
  simp only [update_board_with_random_play_computer_move, hn]

/-- Under a permutation-only shuffle, a board with an empty cell makes the
computer pop some cell that is empty on that board. -/
theorem exists_pop_of_empty_cell (shuffle : List (Fin 9) → List (Fin 9))
    (hs : ∀ l, (shuffle l).Perm l) (b : Board) (k : Fin 9)
    (hk : b k = Cell.Unfilled) :
    ∃ j, (shuffle (get_available_cells b)).getLast? = some j ∧
      b j = Cell.Unfilled := by
  have hmem : k ∈ get_available_cells b :=
    (mem_get_available_cells b k).mpr hk
  have hne : shuffle (get_available_cells b) ≠ [] := by
    intro h0
    have hperm := hs (get_available_cells b)
    rw [h0] at hperm
    rw [hperm.symm.eq_nil] at hmem
    exact List.not_mem_nil k hmem
  refine ⟨(shuffle (get_available_cells b)).getLast hne,
    (shuffle (get_available_cells b)).getLast?_eq_getLast hne, ?_⟩
  have hj : (shuffle (get_available_cells b)).getLast hne ∈
      get_available_cells b :=
    (hs (get_available_cells b)).mem_iff.mp (List.getLast_mem hne)
  exact (mem_get_available_cells b _).mp hj

/-- A permutation-only shuffle sends the empty list to the empty list. -/
theorem shuffle_nil_eq_nil (shuffle : List (Fin 9) → List (Fin 9))
    (hs : ∀ l, (shuffle l).Perm l) : shuffle [] = [] :=
  (hs []).eq_nil

theorem update_board_helper_preserves_filled (b : Board) (sel : Fin 9)
    (c : Cell) (hc : c ≠ Cell.Unfilled) (k : Fin 9)
    (hk : b k ≠ Cell.Unfilled) :
    update_board_helper b sel c k ≠ Cell.Unfilled := by
  unfold update_board_helper
  split
  · exact hc
  · exact hk

theorem comp_move_preserves_filled (shuffle : List (Fin 9) → List (Fin 9))
    (m : Model) (k : Fin 9) (hk : m.board k ≠ Cell.Unfilled) :
    (update_board_with_random_play_computer_move shuffle m).board k ≠
      Cell.Unfilled := by
  rcases hl : (shuffle (get_available_cells m.board)).getLast? with _ | j
  · rw [comp_move_eq_of_getLast_none shuffle m hl, update_game_status_board]
    exact hk
  · rw [comp_move_eq_of_getLast_some shuffle m j hl, update_game_status_board]
    exact update_board_helper_preserves_filled m.board j
      (computer_cell_type m.first_player)
      (computer_cell_type_ne_unfilled m.first_player) k hk

/-- C7: no cell is ever un-played: any cell that is non-Empty before an
`update` (with any message) is still non-Empty afterwards, and the marks
the user-move and computer-move steps write are `Nought` or `Cross`, never
`Unfilled`. -/
theorem claim7_no_cell_ever_unplayed (shuffle : List (Fin 9) → List (Fin 9))
    (m : Model) (msg : Message) (k : Fin 9)
    (hk : m.board k ≠ Cell.Unfilled) :
    (update shuffle m msg).board k ≠ Cell.Unfilled ∧
    user_cell_type m.first_player ≠ Cell.Unfilled ∧
    computer_cell_type m.first_player ≠ Cell.Unfilled := by
  refine ⟨?_, user_cell_type_ne_unfilled m.first_player,
    computer_cell_type_ne_unfilled m.first_player⟩
  cases msg with
  | NoMessage => exact hk
  | PlayerSelected flag =>
    cases flag with
    | false =>
      show (update_board_with_random_play_computer_move shuffle
        { m with first_player := some Player.Computer }).board k ≠
          Cell.Unfilled
      exact comp_move_preserves_filled shuffle _ k hk
    | true => exact hk
  | CellClicked i =>
    have h1 : (update_board_with_user_move m i).board k ≠ Cell.Unfilled := by
      unfold update_board_with_user_move
      rw [update_game_status_board]
      exact update_board_helper_preserves_filled m.board i
        (user_cell_type m.first_player)
        (user_cell_type_ne_unfilled m.first_player) k hk
    show (update_board_with_random_play_computer_move shuffle
      (update_board_with_user_move m i)).board k ≠ Cell.Unfilled
    exact comp_move_preserves_filled shuffle _ k h1

/-- Witness for C7: cell 0 of the overturn model stays filled across the
user's click on cell 2. -/
theorem claim7_no_cell_ever_unplayed_witness :
    (update id overturnModel (Message.CellClicked 2)).board 0 ≠
      Cell.Unfilled ∧
    user_cell_type overturnModel.first_player ≠ Cell.Unfilled ∧
    computer_cell_type overturnModel.first_player ≠ Cell.Unfilled :=
  claim7_no_cell_ever_unplayed id overturnModel (Message.CellClicked 2) 0
    (by decide)

/-- C5: from the initial model: choosing to play first only sets
`first_player` to User (board and status untouched); declining makes the
computer first and triggers exactly one computer move, so exactly one cell
becomes non-Empty, it carries the First mark (`Nought`), and the status is
still NotFinished. -/
theorem claim5_player_order_chosen (shuffle : List (Fin 9) → List (Fin 9))
    (hs : ∀ l, (shuffle l).Perm l) :
    update shuffle Model.new (Message.PlayerSelected true) =
      { Model.new with first_player := some Player.User } ∧
    ((update shuffle Model.new (Message.PlayerSelected false)).first_player =
        some Player.Computer ∧
      (update shuffle Model.new (Message.PlayerSelected false)).status =
        GameStatus.NotFinished ∧
      ∃ i : Fin 9,
        (update shuffle Model.new (Message.PlayerSelected false)).board i =
          Cell.Nought ∧
        ∀ j : Fin 9, j ≠ i →
          (update shuffle Model.new (Message.PlayerSelected false)).board j =
            Cell.Unfilled) := by
  refine ⟨rfl, ?_⟩
  obtain ⟨j, hj, -⟩ :=
    exists_pop_of_empty_cell shuffle hs Model.new.board 0 (by decide)
  have he : update shuffle Model.new (Message.PlayerSelected false) =
      update_game_status
        ⟨some Player.Computer,
         update_board_helper Model.new.board j Cell.Nought,
         GameStatus.NotFinished⟩ := by
    show update_board_with_random_play_computer_move shuffle
        { Model.new with first_player := some Player.Computer } = _
    rw [comp_move_eq_of_getLast_some shuffle
      { Model.new with first_player := some Player.Computer } j hj]
    rfl
  rw [he]
  clear he hj
  revert j
  decide

/-- Witness for C5 with the identity shuffle. -/
theorem claim5_player_order_chosen_witness :
    update id Model.new (Message.PlayerSelected true) =
      { Model.new with first_player := some Player.User } ∧
    (update id Model.new (Message.PlayerSelected false)).first_player =
      some Player.Computer :=
  ⟨(claim5_player_order_chosen id fun l => List.Perm.refl l).1,
   (claim5_player_order_chosen id fun l => List.Perm.refl l).2.1⟩

/-- C1 code bug: the function `update` does not short-circuit when the user's
move settles the game.  At `overturnModel` — a legally reachable position
(computer first: computer played 3, 4, 8; user played 0, 1) — the user's
click on cell 2 completes the `Cross` top row, so the recomputed status is
Settled(User); the claim then demands an immediate return with exactly one
changed cell.  Instead the computer still moves: with the RNG outcome
embodied by `List.reverse` (a permutation, first conjunct, so a possible
shuffle result — it pops available cell 5), two cells change from Empty to
non-Empty and the computer's `Nought` move completes {3,4,5}; the
`Nought` line is checked first, so the final status is
Settled(Computer): the user's winning move is overturned. -/
theorem claim1_no_short_circuit_on_settled :
    (∀ l : List (Fin 9), (List.reverse l).Perm l) ∧
    overturnModel.status = GameStatus.NotFinished ∧
    overturnModel.first_player = some Player.Computer ∧
    overturnModel.board 2 = Cell.Unfilled ∧
    (update_board_with_user_move overturnModel 2).status =
      GameStatus.Settled Player.User ∧
    (changed_cells overturnModel.board
        (update List.reverse overturnModel (Message.CellClicked 2)).board).card
      = 2 ∧
    (update List.reverse overturnModel (Message.CellClicked 2)).status =
      GameStatus.Settled Player.Computer := by
  refine ⟨fun l => List.reverse_perm l, ?_⟩
  decide
